import Mathlib

/-!
Verification of the telegram-channel-saver repository.

This file gives a shallow embedding, in Lean 4, of the parts of the
repository that the specification's testable properties talk about:

* the media acquisition engine (`src/media.py`, `download_media_safely`),
* the message backfill engine (`src/messages.py`, `save_channel_messages`),
* the JSON-snapshot persistence layer (`src/database.py`, `load_database`),
* the participant snapshot engine (`src/users.py`, `save_channel_users`).

Remote interactions (the Telethon client) are modelled as explicit inputs:
the remote message log is a list of message ids sorted newest-first, media
transfer attempts are an indexed stream of attempt outcomes, and wall-clock
effects (sleeps) are recorded in an explicit trace.  Loops whose termination
depends on remote behaviour are given explicit fuel; termination is then a
theorem (stabilisation for every sufficiently large fuel), not an assumption.
-/

set_option autoImplicit false

namespace TgSaver

/-! ### Configuration constants (src/config.py) -/

def MESSAGES_BATCH_SIZE : Nat := 100
def BATCH_DELAY : Nat := 2
def SAVE_INTERVAL : Nat := 300
def MAX_RETRIES : Nat := 3
def MEDIA_DOWNLOAD_DELAY : Nat := 3
def MEDIA_DOWNLOAD_TIMEOUT : Nat := 120
def MEDIA_DOWNLOAD_RETRY : Nat := 3
def MEDIA_RETRY_DELAY_BASE : Nat := 5

/-! ### Media acquisition engine (src/media.py, `download_media_safely`)

One loop iteration of `download_media_safely` performs one transfer attempt;
its outcome is one of the cases below, mirroring the `try`/`except` arms of
the source (lines 60-211 of src/media.py). -/

inductive AttemptEvent where
  /-- Case where `client.download_media` returned a path and the file exists with
  non-zero size (lines 142-158). -/
  | success (path : String)
  /-- a path was returned but the file is missing or empty (lines 159-164). -/
  | emptyFile
  /-- Case where `client.download_media` returned `None` (lines 166-168). -/
  | returnedNone
  /-- Case of `asyncio.TimeoutError` (lines 170-174). -/
  | timeout
  /-- Case of `FloodWaitError` carrying a required wait in seconds (lines 176-184). -/
  | floodWait (sec : Nat)
  /-- Case of `ServerError` or `TimedOutError` (lines 186-190). -/
  | serverError (msg : String)
  /-- Case of `ConnectionError` (lines 192-196). -/
  | connectionError (msg : String)
  /-- Case of `OSError` (lines 198-202). -/
  | osError (msg : String)
  /-- any other exception (lines 204-208). -/
  | unexpected (msg : String)
deriving DecidableEq, Repr

/-- The string written into `result['error']` by each failure arm of
`download_media_safely` (src/media.py lines 161, 167, 171, 178, 187, 193,
199, 205); `none` for a successful attempt, which writes no error. -/
def attemptErrorMsg : AttemptEvent → Option String
  | .success _ => none
  | .emptyFile => some ("Download failed - file is empty or missing")
  | .returnedNone => some ("Download returned None")
  | .timeout =>
      some ("Download timed out after " ++ toString MEDIA_DOWNLOAD_TIMEOUT ++ " seconds")
  | .floodWait w =>
      some ("Rate limit exceeded! Required to wait " ++ toString w ++ " seconds")
  | .serverError m => some ("Telegram server error: " ++ m)
  | .connectionError m => some ("Connection error: " ++ m)
  | .osError m => some ("OS error: " ++ m)
  | .unexpected m => some ("Unexpected error: " ++ m)

/-- The `result` dict of `download_media_safely` (src/media.py lines 37-41). -/
structure DResult where
  success : Bool
  file_path : Option String
  error : Option String
deriving DecidableEq, Repr

/-- One sleep performed by the download loop: either the exponential-backoff
sleep at the top of an iteration with `retry_count > 0` (lines 62-69), or the
mandated flood-wait sleep (line 183). -/
inductive MediaStep where
  | sleptBackoff (retryIndex : Nat) (delay : ℚ)
  | sleptFlood (sec : Nat)
deriving DecidableEq, Repr

/-- The quantity `backoff_time = MEDIA_RETRY_DELAY_BASE * (2 ** (retry_count - 1))`
(src/media.py line 64). -/
def backoffTime (retryCount : Nat) : ℚ :=
  (MEDIA_RETRY_DELAY_BASE : ℚ) * 2 ^ (retryCount - 1)

/-- The quantity `delay = backoff_time * jitter` (src/media.py line 67); the jitter is
drawn from `random.uniform(0.75, 1.25)` and is modelled as an explicit
rational input. -/
def backoffDelay (retryCount : Nat) (jitter : ℚ) : ℚ :=
  backoffTime retryCount * jitter

/-- The retry loop of `download_media_safely` (src/media.py lines 60-215).
State: the attempt index (which entry of the attempt-outcome stream the next
transfer consumes), `retry_count`, and the current `result['error']`.  The
loop runs `while retry_count <= max_retries`; a flood wait sleeps the mandated
seconds and `continue`s without touching `retry_count`; every other failure
falls through to `retry_count += 1`.  On success the function returns with
`result['success'] = True` and `result['file_path']` set — `result['error']`
is left at whatever the previous attempt stored.  `fuel` bounds the number of
iterations (the Python loop has no such bound: an unbounded run of flood
waits loops forever); `none` means the fuel ran out.  The second component
of the result is the trace of sleeps performed. -/
def downloadLoop (events : Nat → AttemptEvent) (jitter : Nat → ℚ) :
    Nat → Nat → Nat → Option String → Option (DResult × List MediaStep)
  | 0, _, _, _ => none
  | fuel + 1, attempt, retryCount, lastErr =>
    if retryCount ≤ MEDIA_DOWNLOAD_RETRY then
      let pre : List MediaStep :=
        if 0 < retryCount then
          [.sleptBackoff retryCount (backoffDelay retryCount (jitter attempt))]
        else []
      match events attempt with
      | .success p =>
          some ({ success := true, file_path := some p, error := lastErr }, pre)
      | .floodWait w =>
          (downloadLoop events jitter fuel (attempt + 1) retryCount
              (attemptErrorMsg (.floodWait w))).map
            (fun r => (r.1, pre ++ MediaStep.sleptFlood w :: r.2))
      | e =>
          (downloadLoop events jitter fuel (attempt + 1) (retryCount + 1)
              (attemptErrorMsg e)).map
            (fun r => (r.1, pre ++ r.2))
    else
      some ({ success := false, file_path := none, error := lastErr }, [])

/-- Entry point of the model of `download_media_safely`: the loop starts with
attempt index 0, `retry_count = 0` and `result['error'] = None`. -/
def download_media_safely (events : Nat → AttemptEvent) (jitter : Nat → ℚ)
    (fuel : Nat) : Option (DResult × List MediaStep) :=
  downloadLoop events jitter fuel 0 0 none

/-! ### Message records and reconciliation (src/messages.py, lines 177-343)

`message_dict` as built at src/messages.py lines 180-233.  Dynamic remote
attributes become explicit fields; dates and timestamps are the strings the
source stores (`str(message.date)` etc.). -/

structure Reaction where
  emoticon : Option String
  document_id : Option Int
  count : Nat
  /-- Value `none` models the fallback reaction record built without a `chosen`
  key (src/messages.py lines 222-233). -/
  chosen : Option Bool
deriving DecidableEq, Repr

structure MessageDict where
  id : Int
  date : String
  edit_date : Option String
  from_id : Option Int
  text : Option String
  raw_text : Option String
  out : Bool
  mentioned : Bool
  media_unread : Bool
  silent : Bool
  post : Bool
  from_scheduled : Bool
  legacy : Bool
  edit_hide : Bool
  pinned : Bool
  noforwards : Bool
  views : Nat
  forwards : Nat
  has_media : Bool
  media_type : Option String
  media_file_path : Option String
  grouped_id : Option String
  reactions : List Reaction
  reply_to : Option Int
  last_update : String
deriving DecidableEq, Repr

/-- The map `db['messages'][channel_id]`: the per-channel message map, keyed by the
(numeric) message id. -/
def Store : Type := Int → Option MessageDict

def Store.insert (s : Store) (k : Int) (v : MessageDict) : Store :=
  fun q => if q = k then some v else s q

def emptyStore : Store := fun _ => none

inductive RecOutcome where
  | savedNew
  | updatedRec
  | skippedRec
deriving DecidableEq, Repr

/-- The update condition at src/messages.py lines 327-330: the stored record
differs from the fresh `message_dict` in `views`, `forwards`, `reactions`,
or (only when media download is enabled) `media_file_path`. -/
def needsUpdate (existing dict : MessageDict) (downloadMedia : Bool) : Bool :=
  decide (existing.views ≠ dict.views) ||
  decide (existing.forwards ≠ dict.forwards) ||
  decide (existing.reactions ≠ dict.reactions) ||
  (downloadMedia && decide (existing.media_file_path ≠ dict.media_file_path))

/-- The insert/update/skip decision at src/messages.py lines 324-338.  A
message id already present with `force_redownload` false is updated when
`needsUpdate` holds (the `dict.update(message_dict)` call overwrites every
field, since `message_dict` carries all of them) and skipped otherwise;
any other case stores the fresh record and counts as new. -/
def reconcileMessage (store : Store) (dict : MessageDict)
    (force downloadMedia : Bool) : Store × RecOutcome :=
  match store dict.id, force with
  | some existing, false =>
      if needsUpdate existing dict downloadMedia then
        (store.insert dict.id dict, .updatedRec)
      else
        (store, .skippedRec)
  | _, _ => (store.insert dict.id dict, .savedNew)

/-- The `saved` / `updated` / `skipped` counters of the backfill loop
(src/messages.py lines 115-117). -/
structure Counters where
  saved : Nat
  updated : Nat
  skipped : Nat
deriving DecidableEq, Repr

def Counters.add (a b : Counters) : Counters :=
  ⟨a.saved + b.saved, a.updated + b.updated, a.skipped + b.skipped⟩

def bump (o : RecOutcome) (c : Counters) : Counters :=
  match o with
  | .savedNew => { c with saved := c.saved + 1 }
  | .updatedRec => { c with updated := c.updated + 1 }
  | .skippedRec => { c with skipped := c.skipped + 1 }

/-- The per-batch message loop (src/messages.py lines 177-343): reconcile
each record in order against the store, counting outcomes. -/
def processMessages (force downloadMedia : Bool) :
    Store → List MessageDict → Store × Counters
  | store, [] => (store, ⟨0, 0, 0⟩)
  | store, d :: rest =>
      let r := reconcileMessage store d force downloadMedia
      let rest2 := processMessages force downloadMedia r.1 rest
      (rest2.1, bump r.2 rest2.2)

/-! ### The paginated fetch and the cursor walk (src/messages.py 129-174)

The remote message log of a channel is a list of message ids sorted
newest-first (strictly descending — Telegram ids within a channel are
unique).  `client.iter_messages(channel, limit, max_id, min_id)` yields, in
that order, at most `limit` ids strictly between `min_id` and `max_id`
(both exclusive). -/

def iter_messages (remote : List Int) (lim : Nat) (maxId minId : Int) :
    List Int :=
  (remote.filter fun i => decide (minId < i) && decide (i < maxId)).take lim

/-- The value `min(msg.id for msg in batch_messages)` (src/messages.py line 168);
only applied to non-empty batches. -/
def listMin : List Int → Int
  | [] => 0
  | x :: xs => xs.foldl min x

/-- The cursor walk of `save_channel_messages` with no processing limit
(src/messages.py lines 130-168): while `current_id >= fetch_min_id`, fetch a
batch with `limit = batch_size`, `max_id = current_id + 1`,
`min_id = fetch_min_id - 1`; stop on an empty batch; otherwise append the
batch to the processed list and move the cursor to `min(batch_ids) - 1`.
`fuel` bounds the iterations. -/
def crawlFrom (remote : List Int) (fetchMinId : Int) (batchSize : Nat) :
    Nat → Int → List Int
  | 0, _ => []
  | fuel + 1, currentId =>
    if fetchMinId ≤ currentId then
      let batch := iter_messages remote batchSize (currentId + 1) (fetchMinId - 1)
      if batch.isEmpty then []
      else batch ++ crawlFrom remote fetchMinId batchSize fuel (listMin batch - 1)
    else []

/-- The full no-limit crawl over the range `[fetchMinId, fetchMaxId)`: the
cursor starts at `fetch_max_id - 1` (src/messages.py line 130).  One fuel
unit more than the remote log's length always suffices (each non-empty batch
consumes at least one remote id in range). -/
def crawlIds (remote : List Int) (fetchMinId fetchMaxId : Int)
    (batchSize : Nat) : List Int :=
  crawlFrom remote fetchMinId batchSize (remote.length + 1) (fetchMaxId - 1)

/-! ### Range resolution (src/messages.py lines 61-86) -/

/-- The newest message id: `client.iter_messages(channel, limit=1)` takes the
head of the newest-first log (src/messages.py lines 66-68). -/
def last_message_id (remote : List Int) : Option Int := remote.head?

/-- The oldest message id: `client.iter_messages(channel, limit=1,
reverse=True)` takes the last element of the newest-first log
(src/messages.py lines 61-63). -/
def first_message_id (remote : List Int) : Option Int := remote.getLast?

/-- Range resolution, src/messages.py lines 74-81: explicit `min_id`/`max_id`
default to the channel boundaries; a given `recent_count` overrides both with
`fetch_min_id = max(first_id, last_id - recent_count)` and
`fetch_max_id = last_id + 1`. -/
def resolveRange (firstId lastId : Int) (minId maxId recentCount : Option Int) :
    Int × Int :=
  let fmin := match minId with | some v => v | none => firstId
  let fmax := match maxId with | some v => v | none => lastId + 1
  match recentCount with
  | some rc => (max firstId (lastId - rc), lastId + 1)
  | none => (fmin, fmax)

/-! ### The batch loop with failures and the final save
(src/messages.py lines 106-414)

The loop state and the per-iteration fetch outcome.  A fetch either succeeds
(`ok`: the batch is then determined by the remote log and the cursor), raises
an `Exception` caught by the inner handler at line 368 (`exc`), or raises
something the inner handler does not stop — an error raised from within the
handler itself, or a `BaseException`-style cancellation at an await point —
which escapes the `while` loop to the outer handler at line 411 (`fatal`). -/

inductive FetchOutcome where
  | ok
  | exc
  | fatal
deriving DecidableEq, Repr

inductive ExitKind where
  /-- loop condition failed because the cursor passed below `fetch_min_id`. -/
  | rangeDone
  /-- loop condition failed because `processed >= limit`. -/
  | limitReached
  /-- empty batch: `break` at line 165. -/
  | emptyBatch
  /-- Exit when `retry_count >= MAX_RETRIES`: `break` at line 379. -/
  | retryExhausted
  /-- an exception escaped the while loop to the outer handler (line 411). -/
  | escaped
  /-- fuel ran out (the model stopped; no counterpart in the source). -/
  | fuelOut
deriving DecidableEq, Repr

structure CrawlState where
  currentId : Int
  processed : Nat
  retryCount : Nat
  store : Store
  counters : Counters

/-- The fixed inputs of one `save_channel_messages` crawl: the remote log
(newest-first), the content of each remote message as a `message_dict`
builder, the resolved lower bound, the optional processing limit, and the
`force_redownload` / `download_media` flags. -/
structure CrawlCtx where
  remote : List Int
  build : Int → MessageDict
  fetchMinId : Int
  limit : Option Nat
  force : Bool
  downloadMedia : Bool

/-- The loop condition `current_id >= fetch_min_id and (limit is None or
processed < limit)` (src/messages.py line 132). -/
def loopCond (fetchMinId : Int) (limit : Option Nat) (s : CrawlState) : Bool :=
  decide (fetchMinId ≤ s.currentId) &&
    (match limit with
     | some l => decide (s.processed < l)
     | none => true)

/-- The value `batch_size = min(MESSAGES_BATCH_SIZE, remaining)` where `remaining =
limit - processed` (src/messages.py lines 135-136). -/
def batchLimit (limit : Option Nat) (processed : Nat) : Nat :=
  match limit with
  | some l => min MESSAGES_BATCH_SIZE (l - processed)
  | none => MESSAGES_BATCH_SIZE

/-- The batch loop of `save_channel_messages` (src/messages.py lines
132-381).  Per iteration: if the loop condition holds, fetch a batch.  A
successful non-empty batch moves the cursor to `min(batch_ids) - 1`, counts
the fetched messages into `processed`, reconciles them into the store and
resets `retry_count`; an empty batch breaks out; an inner-caught exception
increments `retry_count` and breaks out once `retry_count >= MAX_RETRIES`;
an uncaught exception leaves the loop as `escaped`.  Timing effects (batch
delays, the periodic `SAVE_INTERVAL` checkpoint) are not modelled; the final
save is handled by `save_channel_messages_run` below. -/
def runCrawl (ctx : CrawlCtx) (events : Nat → FetchOutcome) :
    Nat → Nat → CrawlState → ExitKind × CrawlState
  | 0, _, s => (.fuelOut, s)
  | fuel + 1, iter, s =>
    if loopCond ctx.fetchMinId ctx.limit s then
      match events iter with
      | .fatal => (.escaped, s)
      | .exc =>
          if MAX_RETRIES ≤ s.retryCount + 1 then
            (.retryExhausted, { s with retryCount := s.retryCount + 1 })
          else
            runCrawl ctx events fuel (iter + 1) { s with retryCount := s.retryCount + 1 }
      | .ok =>
          let bs := batchLimit ctx.limit s.processed
          let batch := iter_messages ctx.remote bs (s.currentId + 1) (ctx.fetchMinId - 1)
          if batch.isEmpty then (.emptyBatch, s)
          else
            let pr := processMessages ctx.force ctx.downloadMedia s.store (batch.map ctx.build)
            runCrawl ctx events fuel (iter + 1)
              { currentId := listMin batch - 1
                processed := s.processed + batch.length
                retryCount := 0
                store := pr.1
                counters := s.counters.add pr.2 }
    else if ctx.fetchMinId ≤ s.currentId then (.limitReached, s) else (.rangeDone, s)

/-- The outcome of one `save_channel_messages` call: the loop exit, the final
in-memory state, the snapshots passed to `save_database` (in order), and the
returned value (`none` models the fuel marker). -/
structure BackfillOut where
  exit : ExitKind
  state : CrawlState
  saves : List Store
  returned : Option Bool

/-- Function `save_channel_messages` around the loop (src/messages.py lines 130,
383-414): the cursor starts at `fetch_max_id - 1`; when the loop finishes by
any `break` or by its condition, the unconditional save at line 384 runs and
the function returns `True`; an exception that escapes the loop is caught by
the outer `except Exception` at line 411 which returns `False` — without
reaching the save at line 384. -/
def save_channel_messages_run (ctx : CrawlCtx) (events : Nat → FetchOutcome)
    (fetchMaxId : Int) (fuel : Nat) (store0 : Store) : BackfillOut :=
  let s0 : CrawlState := ⟨fetchMaxId - 1, 0, 0, store0, ⟨0, 0, 0⟩⟩
  let r := runCrawl ctx events fuel 0 s0
  match r.1 with
  | .escaped => ⟨.escaped, r.2, [], some false⟩
  | .fuelOut => ⟨.fuelOut, r.2, [], none⟩
  | e => ⟨e, r.2, [r.2.store], some true⟩

/-- The termination measure of the batch loop: the number of ids the cursor
still has to cross, weighted so that both a successful batch (cursor strictly
decreases, `retry_count` resets) and a failed batch (`retry_count` strictly
increases) decrease it. -/
def crawlMeasure (fetchMinId : Int) (s : CrawlState) : Nat :=
  (s.currentId + 1 - fetchMinId).toNat * (MAX_RETRIES + 1) +
    (MAX_RETRIES - s.retryCount)

/-! ### Users (src/users.py, `save_channel_users`) -/

/-- A fetched participant, as read at src/users.py lines 51-64 (dynamic
attributes become explicit optional fields; `phone` is read through
`getattr(user, 'phone', None)`). -/
structure RemoteUser where
  id : Int
  username : Option String
  first_name : Option String
  last_name : Option String
  phone : Option String
  bot : Bool
  scam : Bool
  fake : Bool
  premium : Bool
  verified : Bool
  restricted : Bool
deriving DecidableEq, Repr

/-- A stored user record, `db['users'][channel_id][user_id]`
(src/users.py lines 51-76). -/
structure UserDict where
  id : Int
  username : Option String
  first_name : Option String
  last_name : Option String
  phone : Option String
  bot : Bool
  scam : Bool
  fake : Bool
  premium : Bool
  verified : Bool
  restricted : Bool
  last_seen : String
  first_seen : String
deriving DecidableEq, Repr

/-- The map `db['users'][channel_id]`, keyed by `str(user.id)`. -/
def UserStore : Type := String → Option UserDict

def UserStore.insert (s : UserStore) (k : String) (v : UserDict) : UserStore :=
  fun q => if q = k then some v else s q

def emptyUserStore : UserStore := fun _ => none

/-- The dict `user_dict` as built at src/users.py lines 51-64, completed with the
`first_seen` value chosen at lines 69 / 74. -/
def buildUserDict (u : RemoteUser) (nowLastSeen firstSeen : String) : UserDict :=
  { id := u.id
    username := u.username
    first_name := u.first_name
    last_name := u.last_name
    phone := u.phone
    bot := u.bot
    scam := u.scam
    fake := u.fake
    premium := u.premium
    verified := u.verified
    restricted := u.restricted
    last_seen := nowLastSeen
    first_seen := firstSeen }

/-- The per-user upsert of `save_channel_users` (src/users.py lines 66-76):
an existing record keeps its stored `first_seen` and `dict.update(user_dict)`
overwrites every other field; a new record gets `first_seen` from a fresh
timestamp (a second `datetime.now()` call, hence the separate argument).
The boolean reports whether the `updated` (true) or `saved` (false) counter
was incremented. -/
def upsertUser (store : UserStore) (u : RemoteUser)
    (nowLastSeen nowFirstSeen : String) : UserStore × Bool :=
  match store (toString u.id) with
  | some existing =>
      (store.insert (toString u.id) (buildUserDict u nowLastSeen existing.first_seen), true)
  | none =>
      (store.insert (toString u.id) (buildUserDict u nowLastSeen nowFirstSeen), false)

/-! ### Persisted snapshot (src/database.py) -/

/-- The record `db['videos'][channel_id][msg_id]` as built at src/messages.py lines
292-303 and src/media.py lines 294-305. -/
structure VideoInfo where
  id : Int
  date : String
  from_id : Option Int
  media_type : Option String
  file_path : Option String
  download_date : Option String
  file_size : Option Nat
  duration : Option Nat
  mime_type : Option String
  size : Option Nat
deriving DecidableEq, Repr

/-- The `active_channel` record (src/channels.py lines 32-39). -/
structure ChannelInfo where
  id : Int
  title : String
  username : Option String
  participants_count : Nat
  type : String
  index : Nat
deriving DecidableEq, Repr

/-- A session record, `db['sessions'][phone]` (saver.py lines 311-318). -/
structure SessionInfo where
  session_file : String
  created_at : String
  last_used : String
  user_id : Int
  username : Option String
  active : Bool
deriving DecidableEq, Repr

/-- The `last_login` record (saver.py lines 321-326). -/
structure LastLogin where
  phone : String
  user_id : Int
  username : Option String
  date : String
deriving DecidableEq, Repr

/-- The persisted snapshot: the six top-level keys of the JSON document
(src/database.py lines 43-50).  The per-channel maps are association lists
keyed by the stringified channel id. -/
structure Database where
  users : List (String × List (String × UserDict))
  last_login : Option LastLogin
  sessions : List (String × SessionInfo)
  active_channel : Option ChannelInfo
  messages : List (String × List (String × MessageDict))
  videos : List (String × List (String × VideoInfo))
deriving DecidableEq, Repr

/-- Function `create_new_database` (src/database.py lines 33-52), minus its
`save_database` side effect: every mapping empty, both singletons `None`. -/
def create_new_database : Database :=
  { users := []
    last_login := none
    sessions := []
    active_channel := none
    messages := []
    videos := [] }

/-- The condition of the snapshot file on disk when `load_database` runs. -/
inductive DbFileState where
  /-- State where `os.path.exists(db_path)` is false. -/
  | missing
  /-- the file exists but `open`/read raises an `OSError` (permission
  denied, I/O error, ...). -/
  | unreadable
  /-- the file exists and is readable but `json.load` raises
  `json.JSONDecodeError`. -/
  | corruptJson
  /-- the file exists and parses into a snapshot. -/
  | valid (db : Database)

/-- Function `load_database` (src/database.py lines 14-31): a missing file and a
`json.JSONDecodeError` both produce a fresh empty snapshot; the only
`except` clause is `json.JSONDecodeError`, so an `OSError` raised while
opening or reading the file propagates to the caller (modelled as
`Except.error`). -/
def load_database : DbFileState → Except String Database
  | .missing => .ok create_new_database
  | .unreadable => .error ("OSError: could not read database file")
  | .corruptJson => .ok create_new_database
  | .valid db => .ok db

/-! ### Helper lemmas about `listMin` and the window filter -/

lemma foldl_min_le_init (l : List Int) (a : Int) : l.foldl min a ≤ a := by
  induction l generalizing a with
  | nil => simp
  | cons x xs ih =>
      simpa using le_trans (ih (min a x)) (min_le_left a x)

lemma foldl_min_le_mem (l : List Int) (a x : Int) (hx : x ∈ l) :
    l.foldl min a ≤ x := by
  induction l generalizing a with
  | nil => cases hx
  | cons y ys ih =>
      rcases List.mem_cons.mp hx with h | h
      · subst h
        simpa using le_trans (foldl_min_le_init ys (min a x)) (min_le_right a x)
      · simpa using ih (min a y) h

lemma foldl_min_mem_or (l : List Int) (a : Int) :
    l.foldl min a = a ∨ l.foldl min a ∈ l := by
  induction l generalizing a with
  | nil => simp
  | cons x xs ih =>
      rcases ih (min a x) with h | h
      · rcases le_total a x with hax | hxa
        · left; simpa [min_eq_left hax] using h
        · right; simp only [List.foldl_cons]
          rw [h, min_eq_right hxa]
          exact List.mem_cons_self x xs
      · right
        exact List.mem_cons_of_mem x h

lemma listMin_le (l : List Int) (x : Int) (hx : x ∈ l) : listMin l ≤ x := by
  cases l with
  | nil => cases hx
  | cons y ys =>
      rcases List.mem_cons.mp hx with h | h
      · subst h
        exact foldl_min_le_init ys x
      · exact foldl_min_le_mem ys y x h

lemma listMin_mem (l : List Int) (h : l ≠ []) : listMin l ∈ l := by
  cases l with
  | nil => exact absurd rfl h
  | cons y ys =>
      rcases foldl_min_mem_or ys y with h1 | h1
      · simp [listMin, h1]
      · exact List.mem_cons_of_mem y (by simpa [listMin] using h1)

/-- The ids of the remote log inside the closed window `[fetchMinId, c]`,
in remote (newest-first) order. -/
def windowFilter (remote : List Int) (fetchMinId c : Int) : List Int :=
  remote.filter fun i => decide (fetchMinId ≤ i) && decide (i ≤ c)

lemma iter_window (remote : List Int) (bs : Nat) (fm c : Int) :
    iter_messages remote bs (c + 1) (fm - 1) = (windowFilter remote fm c).take bs := by
  unfold iter_messages windowFilter
  congr 1
  refine List.filter_congr ?_
  intro i _
  have h1 : decide (fm - 1 < i) = decide (fm ≤ i) := decide_eq_decide.mpr (by omega)
  have h2 : decide (i < c + 1) = decide (i ≤ c) := decide_eq_decide.mpr (by omega)
  rw [h1, h2]

lemma windowFilter_pairwise (remote : List Int) (fm c : Int)
    (hs : remote.Pairwise (· > ·)) : (windowFilter remote fm c).Pairwise (· > ·) :=
  hs.filter _

/-- After a non-empty batch, the next window (cursor at `min(batch) - 1`)
holds exactly the ids of the current window that the batch did not take. -/
lemma windowFilter_next (remote : List Int) (fm c : Int) (bs : Nat)
    (hs : remote.Pairwise (· > ·))
    (hne : (windowFilter remote fm c).take bs ≠ []) :
    windowFilter remote fm (listMin ((windowFilter remote fm c).take bs) - 1)
      = (windowFilter remote fm c).drop bs := by
  set L := windowFilter remote fm c with hL
  set B := L.take bs with hB
  set m := listMin B with hm
  have hmB : m ∈ B := listMin_mem B hne
  have hmL : m ∈ L := List.mem_of_mem_take hmB
  have hmc : m ≤ c := by
    have := List.mem_filter.mp (hL ▸ hmL)
    simp only [Bool.and_eq_true, decide_eq_true_eq] at this
    exact this.2.2
  have hsplit : B ++ L.drop bs = L := List.take_append_drop bs L
  have hpairL : L.Pairwise (· > ·) := windowFilter_pairwise remote fm c hs
  have hBD : ∀ x ∈ B, ∀ y ∈ L.drop bs, x > y := by
    have := List.pairwise_append.mp (by rw [hsplit]; exact hpairL)
    exact this.2.2
  have step1 : windowFilter remote fm (m - 1) = L.filter fun i => decide (i < m) := by
    rw [hL]
    unfold windowFilter
    rw [List.filter_filter]
    refine (List.filter_congr ?_).symm
    intro a _
    simp only [← Bool.decide_and]
    exact decide_eq_decide.mpr (by constructor <;> (intro h; constructor <;> omega))
  have step2 : (L.filter fun i => decide (i < m)) = L.drop bs := by
    conv_lhs => rw [← hsplit]
    rw [List.filter_append]
    have hBnil : (B.filter fun i => decide (i < m)) = [] := by
      refine List.filter_eq_nil_iff.mpr ?_
      intro x hx
      have := listMin_le B x hx
      simp only [decide_eq_true_eq]
      omega
    have hDall : ((L.drop bs).filter fun i => decide (i < m)) = L.drop bs := by
      refine List.filter_eq_self.mpr ?_
      intro y hy
      have := hBD m hmB y hy
      simp only [decide_eq_true_eq]
      omega
    rw [hBnil, hDall, List.nil_append]
  rw [step1, step2]

/-- The cursor walk with enough fuel returns exactly the ids of the current
window, in remote order. -/
lemma crawlFrom_eq_windowFilter (remote : List Int) (fm : Int) (bs : Nat)
    (hs : remote.Pairwise (· > ·)) (hbs : 1 ≤ bs) :
    ∀ fuel c, (windowFilter remote fm c).length < fuel →
      crawlFrom remote fm bs fuel c = windowFilter remote fm c := by
  intro fuel
  induction fuel with
  | zero => intro c h; omega
  | succ n ih =>
      intro c hlen
      by_cases hc : fm ≤ c
      · rw [crawlFrom, if_pos hc, iter_window]
        by_cases hB : ((windowFilter remote fm c).take bs).isEmpty
        · have hBnil : (windowFilter remote fm c).take bs = [] := List.isEmpty_iff.mp hB
          have : windowFilter remote fm c = [] := by
            rcases List.take_eq_nil_iff.mp hBnil with h | h
            · omega
            · exact h
          rw [hBnil]
          simp [this]
        · have hne : (windowFilter remote fm c).take bs ≠ [] := by
            intro h
            rw [h] at hB
            exact hB rfl
          rw [if_neg (by simpa [List.isEmpty_iff] using hne)]
          have hLne : windowFilter remote fm c ≠ [] := by
            intro h
            apply hne
            rw [h, List.take_nil]
          have hlen2 :
              (windowFilter remote fm
                (listMin ((windowFilter remote fm c).take bs) - 1)).length < n := by
            rw [windowFilter_next remote fm c bs hs hne, List.length_drop]
            have h1 : 1 ≤ (windowFilter remote fm c).length :=
              List.length_pos.mpr hLne
            omega
          rw [ih _ hlen2, windowFilter_next remote fm c bs hs hne,
            List.take_append_drop]
      · rw [crawlFrom, if_neg hc]
        symm
        refine List.filter_eq_nil_iff.mpr ?_
        intro a _
        simp only [Bool.and_eq_true, decide_eq_true_eq, not_and]
        intro h1 h2
        omega

/-- C1: For every pair `min_id < max_id` given to the backfill with no
processing limit, the list of message ids processed by the cursor walk is
exactly the remote log restricted to `{id | min_id ≤ id < max_id}` — in
particular each remote id in the range is visited exactly once and no id
outside the range is visited — for every batch size of at least one. -/
theorem range_correctness (remote : List Int) (minId maxId : Int) (bs : Nat)
    (hs : remote.Pairwise (· > ·)) (hbs : 1 ≤ bs) (hrange : minId < maxId) :
    crawlIds remote minId maxId bs
        = remote.filter (fun i => decide (minId ≤ i) && decide (i < maxId))
      ∧ (crawlIds remote minId maxId bs).Nodup
      ∧ ∀ i : Int, i ∈ crawlIds remote minId maxId bs ↔
          i ∈ remote ∧ minId ≤ i ∧ i < maxId := by
  have hfilter : windowFilter remote minId (maxId - 1)
      = remote.filter (fun i => decide (minId ≤ i) && decide (i < maxId)) := by
    unfold windowFilter
    refine List.filter_congr ?_
    intro i _
    have h2 : decide (i ≤ maxId - 1) = decide (i < maxId) :=
      decide_eq_decide.mpr (by omega)
    rw [h2]
  have hmain : crawlIds remote minId maxId bs
      = windowFilter remote minId (maxId - 1) := by
    unfold crawlIds
    refine crawlFrom_eq_windowFilter remote minId bs hs hbs _ _ ?_
    have hle := List.length_filter_le
      (fun i => decide (minId ≤ i) && decide (i ≤ maxId - 1)) remote
    unfold windowFilter
    omega
  have heq := hmain.trans hfilter
  refine ⟨heq, ?_, ?_⟩
  · rw [heq]
    exact (hs.filter _).imp fun hab => ne_of_gt hab
  · intro i
    rw [heq, List.mem_filter]
    simp

/-- Witness for `range_correctness`: remote log `[5, 3, 2]`, range `[2, 5)`,
batch size 1. -/
theorem range_correctness_witness :
    (([(5 : Int), 3, 2] : List Int).Pairwise (· > ·) ∧ 1 ≤ 1 ∧ (2 : Int) < 5)
      ∧ (crawlIds [5, 3, 2] 2 5 1
            = List.filter (fun i => decide ((2 : Int) ≤ i) && decide (i < 5)) [5, 3, 2]
          ∧ (crawlIds [5, 3, 2] 2 5 1).Nodup
          ∧ ∀ i : Int, i ∈ crawlIds [5, 3, 2] 2 5 1 ↔
              i ∈ ([5, 3, 2] : List Int) ∧ 2 ≤ i ∧ i < 5) :=
  ⟨⟨by decide, by decide, by decide⟩,
    range_correctness [5, 3, 2] 2 5 1 (by decide) (by decide) (by decide)⟩

/-! ### C2: idempotent reconciliation -/

/-- A message whose stored record agrees with the freshly built record on
`views`, `forwards`, `reactions` and `media_file_path` takes the skip branch
and leaves the store untouched. -/
lemma reconcile_skip (store : Store) (d : MessageDict) (dl : Bool)
    (ex : MessageDict) (hex : store d.id = some ex)
    (hv : ex.views = d.views) (hf : ex.forwards = d.forwards)
    (hr : ex.reactions = d.reactions)
    (hm : ex.media_file_path = d.media_file_path) :
    reconcileMessage store d false dl = (store, .skippedRec) := by
  have hnu : needsUpdate ex d dl = false := by
    unfold needsUpdate
    simp [hv, hf, hr, hm]
  unfold reconcileMessage
  rw [hex]
  simp [hnu]

lemma processMessages_all_skip (store : Store) (dl : Bool) :
    ∀ dicts : List MessageDict,
      (∀ d ∈ dicts, ∃ ex, store d.id = some ex ∧ ex.views = d.views
          ∧ ex.forwards = d.forwards ∧ ex.reactions = d.reactions
          ∧ ex.media_file_path = d.media_file_path) →
      processMessages false dl store dicts = (store, ⟨0, 0, dicts.length⟩) := by
  intro dicts
  induction dicts with
  | nil => intro _; rfl
  | cons d rest ih =>
      intro h
      obtain ⟨ex, hex, hv, hf, hr, hm⟩ := h d (List.mem_cons_self d rest)
      have hskip := reconcile_skip store d dl ex hex hv hf hr hm
      have hrest := ih fun q hq => h q (List.mem_cons_of_mem d hq)
      show (let r := reconcileMessage store d false dl
            let rest2 := processMessages false dl r.1 rest
            (rest2.1, bump r.2 rest2.2)) = _
      rw [hskip]
      simp only [hrest]
      rfl

/-- C2: re-running the backfill over an unchanged remote range with
`force_redownload = false` reconciles every message through the skip branch:
the store is returned unchanged and the counters are
`saved = 0, updated = 0, skipped = count`. -/
theorem upsert_idempotent (store : Store) (dicts : List MessageDict) (dl : Bool)
    (h : ∀ d ∈ dicts, ∃ ex, store d.id = some ex ∧ ex.views = d.views
        ∧ ex.forwards = d.forwards ∧ ex.reactions = d.reactions
        ∧ ex.media_file_path = d.media_file_path) :
    processMessages false dl store dicts = (store, ⟨0, 0, dicts.length⟩)
      ∧ ∀ d ∈ dicts, reconcileMessage store d false dl = (store, .skippedRec) := by
  refine ⟨processMessages_all_skip store dl dicts h, ?_⟩
  intro d hd
  obtain ⟨ex, hex, hv, hf, hr, hm⟩ := h d hd
  exact reconcile_skip store d dl ex hex hv hf hr hm

/-- A concrete `message_dict` with the given id, used as remote content in
scenario runs. -/
def mkMsgDict (i : Int) : MessageDict :=
  { id := i
    date := "2024-01-01 00:00:00+00:00"
    edit_date := none
    from_id := none
    text := none
    raw_text := none
    out := false
    mentioned := false
    media_unread := false
    silent := false
    post := true
    from_scheduled := false
    legacy := false
    edit_hide := false
    pinned := false
    noforwards := false
    views := 0
    forwards := 0
    has_media := false
    media_type := none
    media_file_path := none
    grouped_id := none
    reactions := []
    reply_to := none
    last_update := "2024-01-02 00:00:00" }

/-- Witness for `upsert_idempotent`: a store holding message 1 with matching
compared fields, reconciled against the same record. -/
theorem upsert_idempotent_witness :
    (∀ d ∈ [mkMsgDict 1], ∃ ex,
        (Store.insert emptyStore 1 (mkMsgDict 1)) d.id = some ex
          ∧ ex.views = d.views ∧ ex.forwards = d.forwards
          ∧ ex.reactions = d.reactions
          ∧ ex.media_file_path = d.media_file_path)
      ∧ (processMessages false true (Store.insert emptyStore 1 (mkMsgDict 1))
            [mkMsgDict 1]
          = (Store.insert emptyStore 1 (mkMsgDict 1), ⟨0, 0, 1⟩)
        ∧ ∀ d ∈ [mkMsgDict 1],
            reconcileMessage (Store.insert emptyStore 1 (mkMsgDict 1)) d false true
              = (Store.insert emptyStore 1 (mkMsgDict 1), .skippedRec)) :=
  have hh : ∀ d ∈ [mkMsgDict 1], ∃ ex,
      (Store.insert emptyStore 1 (mkMsgDict 1)) d.id = some ex
        ∧ ex.views = d.views ∧ ex.forwards = d.forwards
        ∧ ex.reactions = d.reactions
        ∧ ex.media_file_path = d.media_file_path := by
    intro d hd
    have hd1 : d = mkMsgDict 1 := by simpa using hd
    subst hd1
    exact ⟨mkMsgDict 1, rfl, rfl, rfl, rfl, rfl⟩
  ⟨hh, upsert_idempotent (Store.insert emptyStore 1 (mkMsgDict 1)) [mkMsgDict 1] true hh⟩

/-! ### C3: the `recent_count` scenario -/

/-- The remote log of the C3 scenario: message ids 100..105, newest first. -/
def c3Remote : List Int := [105, 104, 103, 102, 101, 100]

/-- C3: with remote ids 100..105 and `recent_count = 3`,
`save_channel_messages` resolves `fetch_min_id = max(100, 105 - 3) = 102`
and `fetch_max_id = 106` — the range `[102, 105]`, not the `[103, 105]` the
docstring ("Number of most recent messages to fetch") promises — and a
big-batch crawl over that range processes 4 messages, all counted as new
(`saved = 4`, not 3). -/
theorem recent_count_off_by_one :
    first_message_id c3Remote = some 100
      ∧ last_message_id c3Remote = some 105
      ∧ resolveRange 100 105 none none (some 3) = (102, 106)
      ∧ resolveRange 100 105 none none (some 3) ≠ (103, 106)
      ∧ crawlIds c3Remote 102 106 MESSAGES_BATCH_SIZE = [105, 104, 103, 102]
      ∧ (processMessages false true emptyStore
            ((crawlIds c3Remote 102 106 MESSAGES_BATCH_SIZE).map mkMsgDict)).2
          = ⟨4, 0, 0⟩ := by
  refine ⟨rfl, rfl, rfl, by decide, by decide, by decide⟩

/-! ### C4: flood waits never consume the retry budget -/

/-- A run that starts at attempt `a` with `retry_count = 0`, meets `k`
consecutive flood waits and then a success, succeeds with fuel `k + 1`:
every flood wait costs one loop iteration but leaves `retry_count` at 0, so
no backoff sleep ever occurs and the retry budget is untouched. -/
lemma downloadLoop_floods (events : Nat → AttemptEvent) (jitter : Nat → ℚ)
    (ws : Nat → Nat) (p : String) :
    ∀ (k a : Nat) (lastErr : Option String),
      (∀ i, i < k → events (a + i) = .floodWait (ws (a + i))) →
      events (a + k) = .success p →
      downloadLoop events jitter (k + 1) a 0 lastErr
        = some ({ success := true, file_path := some p,
                  error := if k = 0 then lastErr
                           else attemptErrorMsg (.floodWait (ws (a + k - 1))) },
                (List.range k).map fun i => MediaStep.sleptFlood (ws (a + i))) := by
  intro k
  induction k with
  | zero =>
      intro a lastErr _ hsucc
      have hs : events a = .success p := by simpa using hsucc
      rw [downloadLoop, if_pos (by norm_num [MEDIA_DOWNLOAD_RETRY]), hs]
      simp
  | succ n ih =>
      intro a lastErr hflood hsucc
      have h0 : events a = .floodWait (ws a) := by
        simpa using hflood 0 (Nat.succ_pos n)
      rw [downloadLoop, if_pos (by norm_num [MEDIA_DOWNLOAD_RETRY]), h0]
      dsimp only
      have hflood2 : ∀ i, i < n → events (a + 1 + i) = .floodWait (ws (a + 1 + i)) := by
        intro i hi
        have := hflood (i + 1) (by omega)
        rw [show a + (i + 1) = a + 1 + i from by omega] at this
        exact this
      have hsucc2 : events (a + 1 + n) = .success p := by
        rw [show a + 1 + n = a + (n + 1) from by omega]
        exact hsucc
      rw [ih (a + 1) (attemptErrorMsg (.floodWait (ws a))) hflood2 hsucc2]
      refine congrArg some ?_
      refine Prod.ext ?_ ?_
      · cases n with
        | zero => simp
        | succ q =>
            simp only [if_neg (Nat.succ_ne_zero q), if_neg (Nat.succ_ne_zero (q + 1))]
            rw [show a + 1 + (q + 1) - 1 = a + (q + 1 + 1) - 1 from by omega]
      · simp only [if_neg (by omega : ¬ (0 : Nat) < 0)]
        rw [List.range_succ_eq_map]
        simp only [List.map_cons, List.map_map, List.nil_append]
        refine congrArg₂ _ (by rw [Nat.add_zero]) ?_
        refine List.map_congr_left ?_
        intro i _
        simp only [Function.comp_apply]
        rw [show a + Nat.succ i = a + 1 + i from by omega]

/-- C4: a provider flood-wait signal carrying a mandated wait of `w` seconds
makes `download_media_safely` record a sleep of exactly `w` seconds and retry
without incrementing the retry counter; consequently any number of
consecutive flood waits is absorbed — with `retry_count` still 0, no backoff
sleep, and success on the following attempt — so the retry budget is never
consumed by flow control and the operation never fails on its account. -/
theorem flood_wait_no_budget (events : Nat → AttemptEvent) (jitter : Nat → ℚ) :
    (∀ (fuel attempt retryCount : Nat) (lastErr : Option String) (w : Nat),
        retryCount ≤ MEDIA_DOWNLOAD_RETRY →
        events attempt = .floodWait w →
        downloadLoop events jitter (fuel + 1) attempt retryCount lastErr
          = (downloadLoop events jitter fuel (attempt + 1) retryCount
                (attemptErrorMsg (.floodWait w))).map
              (fun r => (r.1,
                (if 0 < retryCount then
                    [MediaStep.sleptBackoff retryCount
                        (backoffDelay retryCount (jitter attempt))]
                  else []) ++ MediaStep.sleptFlood w :: r.2)))
    ∧ ∀ (k : Nat) (ws : Nat → Nat) (p : String),
        (∀ i, i < k → events i = .floodWait (ws i)) →
        events k = .success p →
        downloadLoop events jitter (k + 1) 0 0 none
          = some ({ success := true, file_path := some p,
                    error := if k = 0 then none
                             else attemptErrorMsg (.floodWait (ws (k - 1))) },
                  (List.range k).map fun i => MediaStep.sleptFlood (ws i)) := by
  constructor
  · intro fuel attempt retryCount lastErr w hrc hev
    rw [downloadLoop, if_pos hrc, hev]
  · intro k ws p hflood hsucc
    have h := downloadLoop_floods events jitter ws p k 0 none
      (by intro i hi; simpa using hflood i hi) (by simpa using hsucc)
    simpa using h

/-- The attempt-outcome stream of the C4 witness: two flood waits of 7
seconds, then success. -/
def c4Events : Nat → AttemptEvent :=
  fun a => if a < 2 then .floodWait 7 else .success ("f")

/-- Witness for `flood_wait_no_budget`: two consecutive 7-second flood waits
followed by a success; fuel 3 suffices, the trace holds exactly the two
mandated sleeps and no backoff sleep. -/
theorem flood_wait_no_budget_witness :
    (∀ i, i < 2 → c4Events i = AttemptEvent.floodWait 7)
      ∧ c4Events 2 = AttemptEvent.success ("f")
      ∧ downloadLoop c4Events (fun _ => 1) 3 0 0 none
          = some ({ success := true, file_path := some ("f"),
                    error := some ("Rate limit exceeded! Required to wait 7 seconds") },
                  [MediaStep.sleptFlood 7, MediaStep.sleptFlood 7]) := by
  have h1 : ∀ i, i < 2 → c4Events i = AttemptEvent.floodWait 7 := by
    intro i hi
    interval_cases i <;> rfl
  refine ⟨h1, rfl, ?_⟩
  have h := (flood_wait_no_budget c4Events (fun _ => 1)).2 2 (fun _ => 7) ("f")
    (fun i hi => h1 i hi) rfl
  rw [h]
  decide

/-! ### C5: the backoff schedule -/

/-- Every backoff sleep recorded by a terminating run carries a retry index
`n` between 1 and the retry budget and a delay computed as
`backoffDelay n (jitter a)` for the attempt `a` it preceded. -/
lemma downloadLoop_backoff_entries (events : Nat → AttemptEvent) (jitter : Nat → ℚ) :
    ∀ (fuel attempt retryCount : Nat) (lastErr : Option String)
      (res : DResult) (trace : List MediaStep),
      downloadLoop events jitter fuel attempt retryCount lastErr = some (res, trace) →
      ∀ n d, MediaStep.sleptBackoff n d ∈ trace →
        1 ≤ n ∧ n ≤ MEDIA_DOWNLOAD_RETRY ∧ ∃ a, d = backoffDelay n (jitter a) := by
  intro fuel
  induction fuel with
  | zero =>
      intro attempt rc lastErr res trace hrun
      rw [downloadLoop] at hrun
      cases hrun
  | succ m ih =>
      intro attempt rc lastErr res trace hrun n d hmem
      rw [downloadLoop] at hrun
      by_cases hrc : rc ≤ MEDIA_DOWNLOAD_RETRY
      · rw [if_pos hrc] at hrun
        have hpre : ∀ x, MediaStep.sleptBackoff n d
              ∈ (if 0 < rc then
                  [MediaStep.sleptBackoff rc (backoffDelay rc (jitter x))]
                else ([] : List MediaStep)) →
            1 ≤ n ∧ n ≤ MEDIA_DOWNLOAD_RETRY ∧ ∃ a, d = backoffDelay n (jitter a) := by
          intro x hx
          by_cases h0 : 0 < rc
          · rw [if_pos h0] at hx
            have := List.mem_singleton.mp hx
            cases this
            exact ⟨h0, hrc, x, rfl⟩
          · rw [if_neg h0] at hx
            cases hx
        cases hev : events attempt with
        | success p =>
            rw [hev] at hrun
            dsimp only at hrun
            obtain ⟨-, htr⟩ := Prod.mk.injEq .. ▸ (Option.some.injEq .. ▸ hrun)
            exact hpre attempt (htr ▸ hmem)
        | floodWait w =>
            rw [hev] at hrun
            dsimp only at hrun
            obtain ⟨r0, hr0, hval⟩ := Option.map_eq_some'.mp hrun
            have htr : trace = (if 0 < rc then
                  [MediaStep.sleptBackoff rc (backoffDelay rc (jitter attempt))]
                else []) ++ MediaStep.sleptFlood w :: r0.2 := by
              have := congrArg Prod.snd hval
              simpa using this.symm
            rw [htr] at hmem
            rcases List.mem_append.mp hmem with hx | hx
            · exact hpre attempt hx
            · rcases List.mem_cons.mp hx with hx1 | hx1
              · cases hx1
              · have hrec : downloadLoop events jitter m (attempt + 1) rc
                    (attemptErrorMsg (.floodWait w)) = some (r0.1, r0.2) := by
                  simpa using hr0
                exact ih (attempt + 1) rc (attemptErrorMsg (.floodWait w)) r0.1 r0.2
                  hrec n d hx1
        | emptyFile =>
            rw [hev] at hrun
            dsimp only at hrun
            obtain ⟨r0, hr0, hval⟩ := Option.map_eq_some'.mp hrun
            have htr : trace = (if 0 < rc then
                  [MediaStep.sleptBackoff rc (backoffDelay rc (jitter attempt))]
                else []) ++ r0.2 := by
              have := congrArg Prod.snd hval
              simpa using this.symm
            rw [htr] at hmem
            rcases List.mem_append.mp hmem with hx | hx
            · exact hpre attempt hx
            · exact ih (attempt + 1) (rc + 1) (attemptErrorMsg .emptyFile) r0.1 r0.2
                (by simpa using hr0) n d hx
        | returnedNone =>
            rw [hev] at hrun
            dsimp only at hrun
            obtain ⟨r0, hr0, hval⟩ := Option.map_eq_some'.mp hrun
            have htr : trace = (if 0 < rc then
                  [MediaStep.sleptBackoff rc (backoffDelay rc (jitter attempt))]
                else []) ++ r0.2 := by
              have := congrArg Prod.snd hval
              simpa using this.symm
            rw [htr] at hmem
            rcases List.mem_append.mp hmem with hx | hx
            · exact hpre attempt hx
            · exact ih (attempt + 1) (rc + 1) (attemptErrorMsg .returnedNone) r0.1 r0.2
                (by simpa using hr0) n d hx
        | timeout =>
            rw [hev] at hrun
            dsimp only at hrun
            obtain ⟨r0, hr0, hval⟩ := Option.map_eq_some'.mp hrun
            have htr : trace = (if 0 < rc then
                  [MediaStep.sleptBackoff rc (backoffDelay rc (jitter attempt))]
                else []) ++ r0.2 := by
              have := congrArg Prod.snd hval
              simpa using this.symm
            rw [htr] at hmem
            rcases List.mem_append.mp hmem with hx | hx
            · exact hpre attempt hx
            · exact ih (attempt + 1) (rc + 1) (attemptErrorMsg .timeout) r0.1 r0.2
                (by simpa using hr0) n d hx
        | serverError msg =>
            rw [hev] at hrun
            dsimp only at hrun
            obtain ⟨r0, hr0, hval⟩ := Option.map_eq_some'.mp hrun
            have htr : trace = (if 0 < rc then
                  [MediaStep.sleptBackoff rc (backoffDelay rc (jitter attempt))]
                else []) ++ r0.2 := by
              have := congrArg Prod.snd hval
              simpa using this.symm
            rw [htr] at hmem
            rcases List.mem_append.mp hmem with hx | hx
            · exact hpre attempt hx
            · exact ih (attempt + 1) (rc + 1) (attemptErrorMsg (.serverError msg)) r0.1 r0.2
                (by simpa using hr0) n d hx
        | connectionError msg =>
            rw [hev] at hrun
            dsimp only at hrun
            obtain ⟨r0, hr0, hval⟩ := Option.map_eq_some'.mp hrun
            have htr : trace = (if 0 < rc then
                  [MediaStep.sleptBackoff rc (backoffDelay rc (jitter attempt))]
                else []) ++ r0.2 := by
              have := congrArg Prod.snd hval
              simpa using this.symm
            rw [htr] at hmem
            rcases List.mem_append.mp hmem with hx | hx
            · exact hpre attempt hx
            · exact ih (attempt + 1) (rc + 1) (attemptErrorMsg (.connectionError msg)) r0.1 r0.2
                (by simpa using hr0) n d hx
        | osError msg =>
            rw [hev] at hrun
            dsimp only at hrun
            obtain ⟨r0, hr0, hval⟩ := Option.map_eq_some'.mp hrun
            have htr : trace = (if 0 < rc then
                  [MediaStep.sleptBackoff rc (backoffDelay rc (jitter attempt))]
                else []) ++ r0.2 := by
              have := congrArg Prod.snd hval
              simpa using this.symm
            rw [htr] at hmem
            rcases List.mem_append.mp hmem with hx | hx
            · exact hpre attempt hx
            · exact ih (attempt + 1) (rc + 1) (attemptErrorMsg (.osError msg)) r0.1 r0.2
                (by simpa using hr0) n d hx
        | unexpected msg =>
            rw [hev] at hrun
            dsimp only at hrun
            obtain ⟨r0, hr0, hval⟩ := Option.map_eq_some'.mp hrun
            have htr : trace = (if 0 < rc then
                  [MediaStep.sleptBackoff rc (backoffDelay rc (jitter attempt))]
                else []) ++ r0.2 := by
              have := congrArg Prod.snd hval
              simpa using this.symm
            rw [htr] at hmem
            rcases List.mem_append.mp hmem with hx | hx
            · exact hpre attempt hx
            · exact ih (attempt + 1) (rc + 1) (attemptErrorMsg (.unexpected msg)) r0.1 r0.2
                (by simpa using hr0) n d hx
      · rw [if_neg hrc] at hrun
        obtain ⟨-, htr⟩ := Prod.mk.injEq .. ▸ (Option.some.injEq .. ▸ hrun)
        rw [← htr] at hmem
        cases hmem

/-- C5: in any terminating `download_media_safely` run with jitter drawn
from `[0.75, 1.25]`, the backoff delay recorded before retry attempt `n`
equals `5 * 2 ^ (n - 1)` seconds scaled by the jitter of that attempt (hence
lies between 3/4 and 5/4 of it), `n` stays within the retry budget, and the
jitter-free delay `base * 2 ^ (n - 1)` is strictly increasing in `n`. -/
theorem backoff_schedule (events : Nat → AttemptEvent) (jitter : Nat → ℚ)
    (fuel : Nat) (res : DResult) (trace : List MediaStep)
    (hj : ∀ a, (3 : ℚ) / 4 ≤ jitter a ∧ jitter a ≤ 5 / 4)
    (hrun : downloadLoop events jitter fuel 0 0 none = some (res, trace)) :
    (∀ n d, MediaStep.sleptBackoff n d ∈ trace →
        1 ≤ n ∧ n ≤ MEDIA_DOWNLOAD_RETRY
          ∧ (∃ a, d = (MEDIA_RETRY_DELAY_BASE : ℚ) * 2 ^ (n - 1) * jitter a)
          ∧ (MEDIA_RETRY_DELAY_BASE : ℚ) * 2 ^ (n - 1) * (3 / 4) ≤ d
          ∧ d ≤ (MEDIA_RETRY_DELAY_BASE : ℚ) * 2 ^ (n - 1) * (5 / 4))
    ∧ ∀ m n : Nat, 1 ≤ m → m < n →
        (MEDIA_RETRY_DELAY_BASE : ℚ) * 2 ^ (m - 1)
          < (MEDIA_RETRY_DELAY_BASE : ℚ) * 2 ^ (n - 1) := by
  constructor
  · intro n d hmem
    obtain ⟨h1, h2, a, hd⟩ :=
      downloadLoop_backoff_entries events jitter fuel 0 0 none res trace hrun n d hmem
    have hbase : (0 : ℚ) ≤ (MEDIA_RETRY_DELAY_BASE : ℚ) * 2 ^ (n - 1) := by
      positivity
    refine ⟨h1, h2, ⟨a, by simpa [backoffDelay, backoffTime] using hd⟩, ?_, ?_⟩
    · rw [hd]
      unfold backoffDelay backoffTime
      exact mul_le_mul_of_nonneg_left (hj a).1 hbase
    · rw [hd]
      unfold backoffDelay backoffTime
      exact mul_le_mul_of_nonneg_left (hj a).2 hbase
  · intro m n hm hmn
    have h2 : (2 : ℚ) ^ (m - 1) < 2 ^ (n - 1) := by
      refine pow_lt_pow_right₀ (by norm_num) (by omega)
    have hb : (0 : ℚ) < (MEDIA_RETRY_DELAY_BASE : ℚ) := by
      norm_num [MEDIA_RETRY_DELAY_BASE]
    exact mul_lt_mul_of_pos_left h2 hb

/-- The attempt-outcome stream of the C5 witness: every attempt times out. -/
def c5Events : Nat → AttemptEvent := fun _ => .timeout

def c5Res : DResult :=
  { success := false, file_path := none,
    error := some ("Download timed out after 120 seconds") }

def c5Trace : List MediaStep :=
  [.sleptBackoff 1 (backoffDelay 1 1), .sleptBackoff 2 (backoffDelay 2 1),
    .sleptBackoff 3 (backoffDelay 3 1)]

/-- Witness for `backoff_schedule`: four timeouts exhaust the budget with
jitter constantly 1; the recorded backoff delays are `backoffDelay 1 1 = 5`,
`backoffDelay 2 1 = 10` and `backoffDelay 3 1 = 20` seconds. -/
theorem backoff_schedule_witness :
    ((∀ a : Nat, (3 : ℚ) / 4 ≤ (fun _ : Nat => (1 : ℚ)) a
          ∧ (fun _ : Nat => (1 : ℚ)) a ≤ 5 / 4)
        ∧ downloadLoop c5Events (fun _ => 1) 5 0 0 none = some (c5Res, c5Trace))
      ∧ ((∀ n d, MediaStep.sleptBackoff n d ∈ c5Trace →
            1 ≤ n ∧ n ≤ MEDIA_DOWNLOAD_RETRY
              ∧ (∃ a, d = (MEDIA_RETRY_DELAY_BASE : ℚ) * 2 ^ (n - 1)
                    * (fun _ : Nat => (1 : ℚ)) a)
              ∧ (MEDIA_RETRY_DELAY_BASE : ℚ) * 2 ^ (n - 1) * (3 / 4) ≤ d
              ∧ d ≤ (MEDIA_RETRY_DELAY_BASE : ℚ) * 2 ^ (n - 1) * (5 / 4))
          ∧ ∀ m n : Nat, 1 ≤ m → m < n →
              (MEDIA_RETRY_DELAY_BASE : ℚ) * 2 ^ (m - 1)
                < (MEDIA_RETRY_DELAY_BASE : ℚ) * 2 ^ (n - 1)) :=
  have hj : ∀ a : Nat, (3 : ℚ) / 4 ≤ (fun _ : Nat => (1 : ℚ)) a
      ∧ (fun _ : Nat => (1 : ℚ)) a ≤ 5 / 4 := by
    intro a
    norm_num
  have hrun : downloadLoop c5Events (fun _ => 1) 5 0 0 none = some (c5Res, c5Trace) := by
    rfl
  ⟨⟨hj, hrun⟩, backoff_schedule c5Events (fun _ => 1) 5 c5Res c5Trace hj hrun⟩

/-! ### C6: success after failed attempts -/

/-- The attempt-outcome stream of the C6 scenario: two timeouts, then a
successful transfer. -/
def c6Events (p : String) : Nat → AttemptEvent :=
  fun a => if a < 2 then .timeout else .success p

/-- C6 counterexample: with two timeouts followed by a success,
`download_media_safely` returns `success = true` but its `error` field still
holds the last timeout message — it is not `None`, because the success path
never resets `result['error']` (src/media.py lines 156-158 set only
`success` and `file_path`). -/
theorem success_error_not_reset_cex :
    (downloadLoop (c6Events ("f")) (fun _ => 1) 4 0 0 none).map
        (fun r => (r.1.success, r.1.error))
      = some (true, some ("Download timed out after 120 seconds"))
    ∧ some ("Download timed out after 120 seconds") ≠ (none : Option String) := by
  exact ⟨by decide, by simp⟩

/-- C6 amended: a transfer that times out twice and succeeds on the third
attempt (within the retry budget) returns `success = true` with the file
path set; the `error` field is not reset to `None` but retains the last
timeout message, and the caller's success branch never reads it. -/
theorem success_after_timeouts (p : String) (jitter : Nat → ℚ) :
    (downloadLoop (c6Events p) jitter 4 0 0 none).map (fun r => r.1)
      = some { success := true, file_path := some p,
               error := some ("Download timed out after 120 seconds") } := by
  rfl

/-! ### C7: the final save -/

lemma reconcile_store_mono (store : Store) (d : MessageDict)
    (force dl : Bool) (k : Int) (h : (store k).isSome = true) :
    (((reconcileMessage store d force dl).1) k).isSome = true := by
  unfold reconcileMessage
  cases hex : store d.id with
  | none =>
      dsimp only
      unfold Store.insert
      by_cases hk : k = d.id
      · simp [hk]
      · simp [hk, h]
  | some ex =>
      cases force with
      | false =>
          dsimp only
          by_cases hup : needsUpdate ex d dl
          · rw [if_pos hup]
            unfold Store.insert
            by_cases hk : k = d.id
            · simp [hk]
            · simp [hk, h]
          · rw [if_neg hup]
            exact h
      | true =>
          dsimp only
          unfold Store.insert
          by_cases hk : k = d.id
          · simp [hk]
          · simp [hk, h]

lemma processMessages_store_mono (force dl : Bool) :
    ∀ (dicts : List MessageDict) (store : Store) (k : Int),
      (store k).isSome = true →
      (((processMessages force dl store dicts).1) k).isSome = true := by
  intro dicts
  induction dicts with
  | nil => intro store k h; exact h
  | cons d rest ih =>
      intro store k h
      show (((processMessages force dl (reconcileMessage store d force dl).1 rest).1,
          bump (reconcileMessage store d force dl).2
            (processMessages force dl (reconcileMessage store d force dl).1 rest).2).1 k).isSome
        = true
      exact ih (reconcileMessage store d force dl).1 k
        (reconcile_store_mono store d force dl k h)

/-- A record present in the store stays present through the whole crawl:
reconciliation only inserts or overwrites, never deletes. -/
lemma runCrawl_store_mono (ctx : CrawlCtx) (events : Nat → FetchOutcome) :
    ∀ (fuel iter : Nat) (s : CrawlState) (k : Int),
      (s.store k).isSome = true →
      ((runCrawl ctx events fuel iter s).2.store k).isSome = true := by
  intro fuel
  induction fuel with
  | zero => intro iter s k h; exact h
  | succ m ih =>
      intro iter s k h
      rw [runCrawl]
      by_cases hcond : loopCond ctx.fetchMinId ctx.limit s
      · rw [if_pos hcond]
        cases hev : events iter with
        | fatal => exact h
        | exc =>
            by_cases hr : MAX_RETRIES ≤ s.retryCount + 1
            · rw [if_pos hr]
              exact h
            · rw [if_neg hr]
              exact ih (iter + 1) _ k h
        | ok =>
            dsimp only
            by_cases hb : (iter_messages ctx.remote (batchLimit ctx.limit s.processed)
                (s.currentId + 1) (ctx.fetchMinId - 1)).isEmpty
            · rw [if_pos hb]
              exact h
            · rw [if_neg hb]
              refine ih (iter + 1) _ k ?_
              exact processMessages_store_mono ctx.force ctx.downloadMedia _ s.store k h
      · rw [if_neg hcond]
        by_cases hc : ctx.fetchMinId ≤ s.currentId
        · rw [if_pos hc]; exact h
        · rw [if_neg hc]; exact h

/-- C7 amended: whenever the crawl loop finishes through one of its four
exit paths — range exhaustion, limit reached, empty batch, or retry
exhaustion — `save_channel_messages` performs exactly one final save of the
current store and returns `True`; every record present in the store when the
crawl started (and, by store monotonicity, everything inserted by prior
batches) is contained in the saved snapshot.  An exception that escapes the
loop instead reaches the outer handler, which returns `False` without
saving (see `final_save_escape_cex`). -/
theorem final_save_on_loop_exits (ctx : CrawlCtx) (events : Nat → FetchOutcome)
    (fetchMaxId : Int) (fuel : Nat) (store0 : Store)
    (hexit : (save_channel_messages_run ctx events fetchMaxId fuel store0).exit = .rangeDone
      ∨ (save_channel_messages_run ctx events fetchMaxId fuel store0).exit = .limitReached
      ∨ (save_channel_messages_run ctx events fetchMaxId fuel store0).exit = .emptyBatch
      ∨ (save_channel_messages_run ctx events fetchMaxId fuel store0).exit = .retryExhausted) :
    (save_channel_messages_run ctx events fetchMaxId fuel store0).saves
        = [(save_channel_messages_run ctx events fetchMaxId fuel store0).state.store]
      ∧ (save_channel_messages_run ctx events fetchMaxId fuel store0).returned = some true
      ∧ ∀ k : Int, (store0 k).isSome = true →
          ((save_channel_messages_run ctx events fetchMaxId fuel store0).state.store k).isSome
            = true := by
  have hst := runCrawl_store_mono ctx events fuel 0
    ⟨fetchMaxId - 1, 0, 0, store0, ⟨0, 0, 0⟩⟩
  cases hr : (runCrawl ctx events fuel 0
      ⟨fetchMaxId - 1, 0, 0, store0, ⟨0, 0, 0⟩⟩).1 with
  | rangeDone =>
      simp only [save_channel_messages_run, hr]
      exact ⟨trivial, trivial, fun k hk => hst k hk⟩
  | limitReached =>
      simp only [save_channel_messages_run, hr]
      exact ⟨trivial, trivial, fun k hk => hst k hk⟩
  | emptyBatch =>
      simp only [save_channel_messages_run, hr]
      exact ⟨trivial, trivial, fun k hk => hst k hk⟩
  | retryExhausted =>
      simp only [save_channel_messages_run, hr]
      exact ⟨trivial, trivial, fun k hk => hst k hk⟩
  | escaped =>
      simp only [save_channel_messages_run, hr] at hexit
      rcases hexit with h | h | h | h <;> cases h
  | fuelOut =>
      simp only [save_channel_messages_run, hr] at hexit
      rcases hexit with h | h | h | h <;> cases h

/-! ### C8: termination of the batch loop -/

lemma iter_mem_bounds (remote : List Int) (bs : Nat) (fm c : Int) :
    ∀ i ∈ iter_messages remote bs (c + 1) (fm - 1), fm ≤ i ∧ i ≤ c := by
  intro i hi
  unfold iter_messages at hi
  have hmem := List.mem_filter.mp (List.mem_of_mem_take hi)
  simp only [Bool.and_eq_true, decide_eq_true_eq] at hmem
  omega

/-- Every sufficiently large fuel gives the batch loop the same result, and
that result is a genuine exit: the loop terminates on every event stream. -/
lemma runCrawl_stable (ctx : CrawlCtx) (events : Nat → FetchOutcome) :
    ∀ (mv : Nat) (s : CrawlState) (iter f1 f2 : Nat),
      crawlMeasure ctx.fetchMinId s ≤ mv →
      crawlMeasure ctx.fetchMinId s < f1 → crawlMeasure ctx.fetchMinId s < f2 →
      runCrawl ctx events f1 iter s = runCrawl ctx events f2 iter s
        ∧ (runCrawl ctx events f1 iter s).1 ≠ .fuelOut := by
  intro mv
  induction mv with
  | zero =>
      intro s iter f1 f2 hm h1 h2
      obtain ⟨g1, rfl⟩ : ∃ g, f1 = g + 1 := ⟨f1 - 1, by omega⟩
      obtain ⟨g2, rfl⟩ : ∃ g, f2 = g + 1 := ⟨f2 - 1, by omega⟩
      have hcur : ¬ ctx.fetchMinId ≤ s.currentId := by
        unfold crawlMeasure at hm
        simp only [MAX_RETRIES] at hm
        omega
      have hcond : loopCond ctx.fetchMinId ctx.limit s = false := by
        unfold loopCond
        simp [hcur]
      have hrw : ∀ g : Nat, runCrawl ctx events (g + 1) iter s = (.rangeDone, s) := by
        intro g
        rw [runCrawl]
        simp [hcond, hcur]
      rw [hrw g1, hrw g2]
      exact ⟨rfl, by simp⟩
  | succ mv ih =>
      intro s iter f1 f2 hm h1 h2
      obtain ⟨g1, rfl⟩ : ∃ g, f1 = g + 1 := ⟨f1 - 1, by omega⟩
      obtain ⟨g2, rfl⟩ : ∃ g, f2 = g + 1 := ⟨f2 - 1, by omega⟩
      by_cases hcond : loopCond ctx.fetchMinId ctx.limit s = true
      · cases hev : events iter with
        | fatal =>
            have hrw : ∀ g : Nat, runCrawl ctx events (g + 1) iter s = (.escaped, s) := by
              intro g
              rw [runCrawl]
              simp [hcond, hev]
            rw [hrw g1, hrw g2]
            exact ⟨rfl, by simp⟩
        | exc =>
            by_cases hr3 : MAX_RETRIES ≤ s.retryCount + 1
            · have hrw : ∀ g : Nat, runCrawl ctx events (g + 1) iter s
                  = (.retryExhausted, { s with retryCount := s.retryCount + 1 }) := by
                intro g
                rw [runCrawl]
                simp [hcond, hev, hr3]
              rw [hrw g1, hrw g2]
              exact ⟨rfl, by simp⟩
            · have hrw : ∀ g : Nat, runCrawl ctx events (g + 1) iter s
                  = runCrawl ctx events g (iter + 1)
                      { s with retryCount := s.retryCount + 1 } := by
                intro g
                rw [runCrawl]
                simp [hcond, hev, hr3]
              rw [hrw g1, hrw g2]
              have hlt : crawlMeasure ctx.fetchMinId { s with retryCount := s.retryCount + 1 }
                  < crawlMeasure ctx.fetchMinId s := by
                unfold crawlMeasure
                simp only [MAX_RETRIES] at hr3 ⊢
                omega
              exact ih _ (iter + 1) g1 g2 (by omega) (by omega) (by omega)
        | ok =>
            by_cases hb : (iter_messages ctx.remote (batchLimit ctx.limit s.processed)
                (s.currentId + 1) (ctx.fetchMinId - 1)).isEmpty = true
            · have hrw : ∀ g : Nat, runCrawl ctx events (g + 1) iter s = (.emptyBatch, s) := by
                intro g
                rw [runCrawl]
                simp [hcond, hev, hb]
              rw [hrw g1, hrw g2]
              exact ⟨rfl, by simp⟩
            · have hne : iter_messages ctx.remote (batchLimit ctx.limit s.processed)
                  (s.currentId + 1) (ctx.fetchMinId - 1) ≠ [] := by
                simpa [List.isEmpty_iff] using hb
              have hcur : ctx.fetchMinId ≤ s.currentId := by
                unfold loopCond at hcond
                simp only [Bool.and_eq_true, decide_eq_true_eq] at hcond
                exact hcond.1
              have hmb := iter_mem_bounds ctx.remote (batchLimit ctx.limit s.processed)
                ctx.fetchMinId s.currentId
                (listMin (iter_messages ctx.remote (batchLimit ctx.limit s.processed)
                  (s.currentId + 1) (ctx.fetchMinId - 1)))
                (listMin_mem _ hne)
              have hrw : ∀ g : Nat, runCrawl ctx events (g + 1) iter s
                  = runCrawl ctx events g (iter + 1)
                      { currentId := listMin (iter_messages ctx.remote
                            (batchLimit ctx.limit s.processed)
                            (s.currentId + 1) (ctx.fetchMinId - 1)) - 1
                        processed := s.processed + (iter_messages ctx.remote
                            (batchLimit ctx.limit s.processed)
                            (s.currentId + 1) (ctx.fetchMinId - 1)).length
                        retryCount := 0
                        store := (processMessages ctx.force ctx.downloadMedia s.store
                            ((iter_messages ctx.remote (batchLimit ctx.limit s.processed)
                              (s.currentId + 1) (ctx.fetchMinId - 1)).map ctx.build)).1
                        counters := s.counters.add (processMessages ctx.force
                            ctx.downloadMedia s.store
                            ((iter_messages ctx.remote (batchLimit ctx.limit s.processed)
                              (s.currentId + 1) (ctx.fetchMinId - 1)).map ctx.build)).2 } := by
                intro g
                rw [runCrawl]
                simp [hcond, hev, hb]
              rw [hrw g1, hrw g2]
              have hlt : crawlMeasure ctx.fetchMinId
                  { currentId := listMin (iter_messages ctx.remote
                        (batchLimit ctx.limit s.processed)
                        (s.currentId + 1) (ctx.fetchMinId - 1)) - 1
                    processed := s.processed + (iter_messages ctx.remote
                        (batchLimit ctx.limit s.processed)
                        (s.currentId + 1) (ctx.fetchMinId - 1)).length
                    retryCount := 0
                    store := (processMessages ctx.force ctx.downloadMedia s.store
                        ((iter_messages ctx.remote (batchLimit ctx.limit s.processed)
                          (s.currentId + 1) (ctx.fetchMinId - 1)).map ctx.build)).1
                    counters := s.counters.add (processMessages ctx.force
                        ctx.downloadMedia s.store
                        ((iter_messages ctx.remote (batchLimit ctx.limit s.processed)
                          (s.currentId + 1) (ctx.fetchMinId - 1)).map ctx.build)).2 }
                  < crawlMeasure ctx.fetchMinId s := by
                unfold crawlMeasure
                simp only [MAX_RETRIES]
                obtain ⟨hm1, hm2⟩ := hmb
                omega
              exact ih _ (iter + 1) g1 g2 (by omega) (by omega) (by omega)
      · have hc2 : loopCond ctx.fetchMinId ctx.limit s = false :=
          Bool.not_eq_true _ ▸ (by simpa using hcond)
        have hrw : ∀ g : Nat, runCrawl ctx events (g + 1) iter s
            = if ctx.fetchMinId ≤ s.currentId then (.limitReached, s)
              else (.rangeDone, s) := by
          intro g
          rw [runCrawl]
          simp [hc2]
        rw [hrw g1, hrw g2]
        by_cases hcur : ctx.fetchMinId ≤ s.currentId
        · rw [if_pos hcur]
          exact ⟨rfl, by simp⟩
        · rw [if_neg hcur]
          exact ⟨rfl, by simp⟩

/-- C8: for every finite remote log the crawl loop terminates, whatever the
event stream: the result stabilises once the fuel exceeds the loop measure
and is never the fuel marker.  The exit mechanisms: a successful non-empty
batch has all ids within `[fetch_min_id, current_id]` and moves the cursor
to `min(batch) - 1`, strictly below the current cursor; an empty batch exits
the loop; an inner-caught exception taking `retry_count` to `MAX_RETRIES`
exits via retry exhaustion; and reaching the processing limit exits through
the loop condition. -/
theorem crawl_loop_terminates (ctx : CrawlCtx) (events : Nat → FetchOutcome) :
    (∀ (s : CrawlState) (iter f1 f2 : Nat),
        crawlMeasure ctx.fetchMinId s < f1 → crawlMeasure ctx.fetchMinId s < f2 →
        runCrawl ctx events f1 iter s = runCrawl ctx events f2 iter s
          ∧ (runCrawl ctx events f1 iter s).1 ≠ .fuelOut)
    ∧ (∀ (c : Int) (bs : Nat),
        iter_messages ctx.remote bs (c + 1) (ctx.fetchMinId - 1) ≠ [] →
        (∀ i ∈ iter_messages ctx.remote bs (c + 1) (ctx.fetchMinId - 1),
            ctx.fetchMinId ≤ i ∧ i ≤ c)
          ∧ listMin (iter_messages ctx.remote bs (c + 1) (ctx.fetchMinId - 1)) - 1 < c)
    ∧ (∀ (fuel iter : Nat) (s : CrawlState),
        loopCond ctx.fetchMinId ctx.limit s = true → events iter = .ok →
        (iter_messages ctx.remote (batchLimit ctx.limit s.processed)
            (s.currentId + 1) (ctx.fetchMinId - 1)).isEmpty = true →
        runCrawl ctx events (fuel + 1) iter s = (.emptyBatch, s))
    ∧ (∀ (fuel iter : Nat) (s : CrawlState),
        loopCond ctx.fetchMinId ctx.limit s = true → events iter = .exc →
        MAX_RETRIES ≤ s.retryCount + 1 →
        runCrawl ctx events (fuel + 1) iter s
          = (.retryExhausted, { s with retryCount := s.retryCount + 1 }))
    ∧ (∀ (fuel iter : Nat) (s : CrawlState) (l : Nat),
        ctx.limit = some l → l ≤ s.processed → ctx.fetchMinId ≤ s.currentId →
        runCrawl ctx events (fuel + 1) iter s = (.limitReached, s)) := by
  refine ⟨?_, ?_, ?_, ?_, ?_⟩
  · intro s iter f1 f2 h1 h2
    exact runCrawl_stable ctx events (crawlMeasure ctx.fetchMinId s) s iter f1 f2
      le_rfl h1 h2
  · intro c bs hne
    refine ⟨iter_mem_bounds ctx.remote bs ctx.fetchMinId c, ?_⟩
    obtain ⟨-, h2⟩ := iter_mem_bounds ctx.remote bs ctx.fetchMinId c
      (listMin (iter_messages ctx.remote bs (c + 1) (ctx.fetchMinId - 1)))
      (listMin_mem _ hne)
    omega
  · intro fuel iter s hcond hev hb
    rw [runCrawl]
    simp [hcond, hev, hb]
  · intro fuel iter s hcond hev hr3
    rw [runCrawl]
    simp [hcond, hev, hr3]
  · intro fuel iter s l hl hproc hcur
    have hcond : loopCond ctx.fetchMinId ctx.limit s = false := by
      unfold loopCond
      rw [hl]
      simp
      omega
    rw [runCrawl]
    simp [hcond, hcur]

/-- The crawl context of the C8 and C7 witnesses: remote ids `[3, 2, 1]`,
lower bound 1, no limit. -/
def c8Ctx : CrawlCtx :=
  { remote := [3, 2, 1], build := mkMsgDict, fetchMinId := 1,
    limit := none, force := false, downloadMedia := false }

def c8State : CrawlState := ⟨3, 0, 0, emptyStore, ⟨0, 0, 0⟩⟩

/-- Witness for `crawl_loop_terminates`: with remote `[3, 2, 1]` and an
all-successful event stream, fuels 20 and 30 (both above the measure) give
the same, non-fuel-marker result. -/
theorem crawl_loop_terminates_witness :
    (crawlMeasure c8Ctx.fetchMinId c8State < 20
        ∧ crawlMeasure c8Ctx.fetchMinId c8State < 30)
      ∧ (runCrawl c8Ctx (fun _ => .ok) 20 0 c8State
            = runCrawl c8Ctx (fun _ => .ok) 30 0 c8State
          ∧ (runCrawl c8Ctx (fun _ => .ok) 20 0 c8State).1 ≠ .fuelOut) :=
  ⟨⟨by decide, by decide⟩,
    (crawl_loop_terminates c8Ctx (fun _ => .ok)).1 c8State 0 20 30
      (by decide) (by decide)⟩

/-- Witness for `final_save_on_loop_exits`: the crawl over `[3, 2, 1]` with
all fetches succeeding exits through range exhaustion; the final save runs
and the call returns `True`. -/
theorem final_save_on_loop_exits_witness :
    ((save_channel_messages_run c8Ctx (fun _ => .ok) 4 10 emptyStore).exit
        = ExitKind.rangeDone)
      ∧ ((save_channel_messages_run c8Ctx (fun _ => .ok) 4 10 emptyStore).saves
            = [(save_channel_messages_run c8Ctx (fun _ => .ok) 4 10 emptyStore).state.store]
        ∧ (save_channel_messages_run c8Ctx (fun _ => .ok) 4 10 emptyStore).returned
            = some true
        ∧ ∀ k : Int, (emptyStore k).isSome = true →
            ((save_channel_messages_run c8Ctx (fun _ => .ok) 4 10 emptyStore).state.store
              k).isSome = true) :=
  ⟨by decide,
    final_save_on_loop_exits c8Ctx (fun _ => .ok) 4 10 emptyStore (Or.inl (by decide))⟩

/-- The remote log of the C7 counterexample: ids `[120, 119, ..., 1]`, more
than one full batch. -/
def bigRemote : List Int := (List.range 120).map fun n => (120 : Int) - n

def c7Ctx : CrawlCtx :=
  { remote := bigRemote, build := mkMsgDict, fetchMinId := 1,
    limit := none, force := false, downloadMedia := false }

/-- The first fetch succeeds (a full batch of 100 messages); the second
raises past the inner handler. -/
def c7Events : Nat → FetchOutcome := fun i => if i = 0 then .ok else .fatal

set_option maxRecDepth 100000 in
/-- C7 counterexample: when an exception escapes the crawl loop on the
second batch, the outer handler returns `False` and `save_database` is never
called — the 100 messages processed and counted as saved by the first batch
are not persisted, contradicting the claim that the store is saved before
the operation returns on every completion path. -/
theorem final_save_escape_cex :
    (save_channel_messages_run c7Ctx c7Events 121 10 emptyStore).exit = ExitKind.escaped
      ∧ (save_channel_messages_run c7Ctx c7Events 121 10 emptyStore).saves.length = 0
      ∧ (save_channel_messages_run c7Ctx c7Events 121 10 emptyStore).returned = some false
      ∧ (save_channel_messages_run c7Ctx c7Events 121 10
          emptyStore).state.counters.saved = 100 := by
  decide

/-! ### C9: loading the snapshot -/

/-- C9 counterexample: `load_database` on an existing-but-unreadable file
does raise — the only handled failure is `json.JSONDecodeError`, so the
OS-level read error propagates and no snapshot is produced. -/
theorem load_unreadable_raises_cex :
    load_database DbFileState.unreadable
        = Except.error ("OSError: could not read database file")
      ∧ (load_database DbFileState.unreadable).toOption = none :=
  ⟨rfl, rfl⟩

/-- C9 amended: `load_database` returns the empty, correctly-shaped
snapshot — all six top-level keys present, every mapping empty and both
singletons `None` — when the snapshot file is missing or holds invalid
JSON, and returns the parsed snapshot when the file is valid; an OS-level
read error, however, is not caught and propagates
(see `load_unreadable_raises_cex`). -/
theorem load_empty_on_missing_or_corrupt :
    load_database DbFileState.missing = Except.ok create_new_database
      ∧ load_database DbFileState.corruptJson = Except.ok create_new_database
      ∧ create_new_database.users = []
      ∧ create_new_database.last_login = none
      ∧ create_new_database.sessions = []
      ∧ create_new_database.active_channel = none
      ∧ create_new_database.messages = []
      ∧ create_new_database.videos = []
      ∧ ∀ db, load_database (DbFileState.valid db) = Except.ok db :=
  ⟨rfl, rfl, rfl, rfl, rfl, rfl, rfl, rfl, fun _ => rfl⟩

/-! ### C10: `first_seen` immutability -/

/-- C10: upserting a participant already present in the store produces
exactly the freshly built record with the stored `first_seen` carried over:
`first_seen` is preserved, every other field (username, names, phone, the
boolean flags, `last_seen`) takes the newly fetched value, the `updated`
counter is the one incremented, and no other key of the store changes. -/
theorem first_seen_immutable (store : UserStore) (u : RemoteUser) (ex : UserDict)
    (nowLS nowFS : String) (h : store (toString u.id) = some ex) :
    (upsertUser store u nowLS nowFS).1 (toString u.id)
        = some (buildUserDict u nowLS ex.first_seen)
      ∧ (upsertUser store u nowLS nowFS).2 = true
      ∧ (buildUserDict u nowLS ex.first_seen).first_seen = ex.first_seen
      ∧ (buildUserDict u nowLS ex.first_seen).username = u.username
      ∧ (buildUserDict u nowLS ex.first_seen).first_name = u.first_name
      ∧ (buildUserDict u nowLS ex.first_seen).last_name = u.last_name
      ∧ (buildUserDict u nowLS ex.first_seen).phone = u.phone
      ∧ (buildUserDict u nowLS ex.first_seen).bot = u.bot
      ∧ (buildUserDict u nowLS ex.first_seen).scam = u.scam
      ∧ (buildUserDict u nowLS ex.first_seen).fake = u.fake
      ∧ (buildUserDict u nowLS ex.first_seen).premium = u.premium
      ∧ (buildUserDict u nowLS ex.first_seen).verified = u.verified
      ∧ (buildUserDict u nowLS ex.first_seen).restricted = u.restricted
      ∧ (buildUserDict u nowLS ex.first_seen).last_seen = nowLS
      ∧ ∀ q, q ≠ toString u.id → (upsertUser store u nowLS nowFS).1 q = store q := by
  unfold upsertUser
  rw [h]
  dsimp only
  refine ⟨?_, rfl, rfl, rfl, rfl, rfl, rfl, rfl, rfl, rfl, rfl, rfl, rfl, rfl, ?_⟩
  · unfold UserStore.insert
    simp
  · intro q hq
    unfold UserStore.insert
    simp [hq]

def w10User : RemoteUser :=
  { id := 7, username := some ("alice"), first_name := some ("Alice"),
    last_name := none, phone := none, bot := false, scam := false,
    fake := false, premium := true, verified := false, restricted := false }

def w10Existing : UserDict := buildUserDict w10User ("t0") ("t0")

def w10Store : UserStore := UserStore.insert emptyUserStore ("7") w10Existing

/-- Witness for `first_seen_immutable`: user 7 is already stored with
`first_seen = "t0"`; re-upserting at time `"t1"` keeps `first_seen` and
refreshes the rest. -/
theorem first_seen_immutable_witness :
    w10Store (toString w10User.id) = some w10Existing
      ∧ ((upsertUser w10Store w10User ("t1") ("t2")).1 (toString w10User.id)
            = some (buildUserDict w10User ("t1") w10Existing.first_seen)
        ∧ (upsertUser w10Store w10User ("t1") ("t2")).2 = true
        ∧ (buildUserDict w10User ("t1") w10Existing.first_seen).first_seen
            = w10Existing.first_seen
        ∧ (buildUserDict w10User ("t1") w10Existing.first_seen).username = w10User.username
        ∧ (buildUserDict w10User ("t1") w10Existing.first_seen).first_name
            = w10User.first_name
        ∧ (buildUserDict w10User ("t1") w10Existing.first_seen).last_name = w10User.last_name
        ∧ (buildUserDict w10User ("t1") w10Existing.first_seen).phone = w10User.phone
        ∧ (buildUserDict w10User ("t1") w10Existing.first_seen).bot = w10User.bot
        ∧ (buildUserDict w10User ("t1") w10Existing.first_seen).scam = w10User.scam
        ∧ (buildUserDict w10User ("t1") w10Existing.first_seen).fake = w10User.fake
        ∧ (buildUserDict w10User ("t1") w10Existing.first_seen).premium = w10User.premium
        ∧ (buildUserDict w10User ("t1") w10Existing.first_seen).verified = w10User.verified
        ∧ (buildUserDict w10User ("t1") w10Existing.first_seen).restricted
            = w10User.restricted
        ∧ (buildUserDict w10User ("t1") w10Existing.first_seen).last_seen = ("t1")
        ∧ ∀ q, q ≠ toString w10User.id →
            (upsertUser w10Store w10User ("t1") ("t2")).1 q = w10Store q) :=
  have h : w10Store (toString w10User.id) = some w10Existing := by rfl
  ⟨h, first_seen_immutable w10Store w10User w10Existing ("t1") ("t2") h⟩

end TgSaver
